import Mathlib

/-!
Verification development for the 4JOBS front-end video-call layer.

The definitions below are a shallow embedding of
`src/services/userVideoCallService.ts` (first revision of the file) and
`src/config/webrtcConfig.ts`.  Strings are modelled as `List Char`
(Lean `Char` is a Unicode scalar value, matching a well-formed JS string),
bytes as `Nat` values below 256.  Platform primitives (`Buffer`,
`JSON.stringify` / `JSON.parse`, `RTCPeerConnection`, `MediaStream`) are
modelled at the level of their observable behaviour; the mutable fields of
the service singleton become record fields threaded explicitly, and every
`throw` becomes an explicit error value.
-/

namespace VideoCall

/-! ## Base64 (model of Node `Buffer.toString("base64")` / `Buffer.from(_, "base64")`)

`Buffer.from(JSON.stringify(x)).toString("base64")` is the encoding used in
`_makeCallInternal` (line 379) and `createAnswer` (line 442); the inverse
direction `Buffer.from(b64, "base64").toString("utf-8")` appears in
`handleIncomingCall` (line 395), `handleAnswer` (line 458) and the patched
`handleIceCandidate` closure (lines 205-208). -/

/-- Character of the standard base64 alphabet for a 6-bit value. -/
def base64Char (n : Nat) : Char :=
  if n < 26 then Char.ofNat (65 + n)
  else if n < 52 then Char.ofNat (97 + (n - 26))
  else if n < 62 then Char.ofNat (48 + (n - 52))
  else if n = 62 then '+'
  else '/'

/-- Inverse lookup in the base64 alphabet. -/
def base64Val (c : Char) : Option Nat :=
  let n := c.toNat
  if 65 ≤ n ∧ n ≤ 90 then some (n - 65)
  else if 97 ≤ n ∧ n ≤ 122 then some (26 + (n - 97))
  else if 48 ≤ n ∧ n ≤ 57 then some (52 + (n - 48))
  else if c = '+' then some 62
  else if c = '/' then some 63
  else none

/-- Base64 encoding of a byte list (values < 256), with `=` padding. -/
def base64Encode : List Nat → List Char
  | [] => []
  | [b1] => [base64Char (b1 / 4), base64Char ((b1 % 4) * 16), '=', '=']
  | [b1, b2] =>
      [base64Char (b1 / 4), base64Char ((b1 % 4) * 16 + b2 / 16),
       base64Char ((b2 % 16) * 4), '=']
  | b1 :: b2 :: b3 :: rest =>
      base64Char (b1 / 4) :: base64Char ((b1 % 4) * 16 + b2 / 16) ::
      base64Char ((b2 % 16) * 4 + b3 / 64) :: base64Char (b3 % 64) ::
      base64Encode rest

/-- Base64 decoding back to bytes; `none` on input that is not a padded
base64 string. -/
def base64Decode : List Char → Option (List Nat)
  | [] => some []
  | c1 :: c2 :: c3 :: c4 :: rest =>
      if c3 = '=' then
        if c4 = '=' ∧ rest = [] then
          match base64Val c1, base64Val c2 with
          | some n1, some n2 => some [n1 * 4 + n2 / 16]
          | _, _ => none
        else none
      else if c4 = '=' then
        if rest = [] then
          match base64Val c1, base64Val c2, base64Val c3 with
          | some n1, some n2, some n3 =>
              some [n1 * 4 + n2 / 16, (n2 % 16) * 16 + n3 / 4]
          | _, _, _ => none
        else none
      else
        match base64Val c1, base64Val c2, base64Val c3, base64Val c4 with
        | some n1, some n2, some n3, some n4 =>
            match base64Decode rest with
            | some bs =>
                some ((n1 * 4 + n2 / 16) :: ((n2 % 16) * 16 + n3 / 4) ::
                      ((n3 % 4) * 64 + n4) :: bs)
            | none => none
        | _, _, _, _ => none
  | _ => none

/-! ## UTF-8 (model of `Buffer.from(string)` / `buffer.toString("utf-8")`) -/

/-- Construct a `Char` from a code point, `none` on surrogates or
out-of-range values. -/
def mkChar? (n : Nat) : Option Char :=
  if n < 0xD800 ∨ (0xE000 ≤ n ∧ n < 0x110000) then some (Char.ofNat n) else none

/-- UTF-8 bytes of one Unicode scalar value. -/
def utf8EncodeChar (c : Char) : List Nat :=
  let n := c.toNat
  if n < 0x80 then [n]
  else if n < 0x800 then [0xC0 + n / 64, 0x80 + n % 64]
  else if n < 0x10000 then
    [0xE0 + n / 4096, 0x80 + (n / 64) % 64, 0x80 + n % 64]
  else
    [0xF0 + n / 262144, 0x80 + (n / 4096) % 64, 0x80 + (n / 64) % 64,
     0x80 + n % 64]

/-- UTF-8 encoding of a character list. -/
def utf8Encode : List Char → List Nat
  | [] => []
  | c :: cs => utf8EncodeChar c ++ utf8Encode cs

/-- UTF-8 decoding; `none` on truncated sequences, bad lead or continuation
bytes, or invalid code points. -/
def utf8Decode : List Nat → Option (List Char)
  | [] => some []
  | b1 :: rest =>
    if b1 < 0x80 then
      (mkChar? b1).bind (fun c => (utf8Decode rest).map (fun cs => c :: cs))
    else if b1 < 0xC0 then none
    else if b1 < 0xE0 then
      match rest with
      | b2 :: rest2 =>
        if 0x80 ≤ b2 ∧ b2 < 0xC0 then
          (mkChar? ((b1 - 0xC0) * 64 + (b2 - 0x80))).bind
            (fun c => (utf8Decode rest2).map (fun cs => c :: cs))
        else none
      | [] => none
    else if b1 < 0xF0 then
      match rest with
      | b2 :: rest2 =>
        match rest2 with
        | b3 :: rest3 =>
          if (0x80 ≤ b2 ∧ b2 < 0xC0) ∧ (0x80 ≤ b3 ∧ b3 < 0xC0) then
            (mkChar? ((b1 - 0xE0) * 4096 + (b2 - 0x80) * 64 + (b3 - 0x80))).bind
              (fun c => (utf8Decode rest3).map (fun cs => c :: cs))
          else none
        | [] => none
      | [] => none
    else if b1 < 0xF8 then
      match rest with
      | b2 :: rest2 =>
        match rest2 with
        | b3 :: rest3 =>
          match rest3 with
          | b4 :: rest4 =>
            if (0x80 ≤ b2 ∧ b2 < 0xC0) ∧ (0x80 ≤ b3 ∧ b3 < 0xC0) ∧
               (0x80 ≤ b4 ∧ b4 < 0xC0) then
              (mkChar? ((b1 - 0xF0) * 262144 + (b2 - 0x80) * 4096 +
                        (b3 - 0x80) * 64 + (b4 - 0x80))).bind
                (fun c => (utf8Decode rest4).map (fun cs => c :: cs))
            else none
          | [] => none
        | [] => none
      | [] => none
    else none

/-! ## JSON (model of `JSON.stringify` / `JSON.parse` restricted to the
`RTCSessionDescriptionInit` shape `\x7b"type": string, "sdp": string\x7d`
that `createOffer` / `createAnswer` produce). -/

/-- Lower-case hex digit, as emitted by `JSON.stringify` in `\u00xx`
escapes. -/
def hexDigitChar (n : Nat) : Char :=
  if n < 10 then Char.ofNat (48 + n) else Char.ofNat (97 + (n - 10))

/-- Value of a hex digit accepted by `JSON.parse` in a `\uXXXX` escape. -/
def hexVal (c : Char) : Option Nat :=
  let n := c.toNat
  if 48 ≤ n ∧ n ≤ 57 then some (n - 48)
  else if 97 ≤ n ∧ n ≤ 102 then some (10 + (n - 97))
  else if 65 ≤ n ∧ n ≤ 70 then some (10 + (n - 65))
  else none

/-- `JSON.stringify` escaping of a single character inside a string
literal: quote and backslash get a backslash escape, the five named control
characters get their short escapes, remaining control characters become
`\u00xx`, everything else is emitted verbatim. -/
def escapeChar (c : Char) : List Char :=
  if c = '"' then ['\\', '"']
  else if c = '\\' then ['\\', '\\']
  else if c = Char.ofNat 8 then ['\\', 'b']
  else if c = Char.ofNat 9 then ['\\', 't']
  else if c = Char.ofNat 10 then ['\\', 'n']
  else if c = Char.ofNat 12 then ['\\', 'f']
  else if c = Char.ofNat 13 then ['\\', 'r']
  else if c.toNat < 32 then
    ['\\', 'u', '0', '0', hexDigitChar (c.toNat / 16), hexDigitChar (c.toNat % 16)]
  else [c]

/-- Escape every character of a string body. -/
def escapeList : List Char → List Char
  | [] => []
  | c :: cs => escapeChar c ++ escapeList cs

/-- A JSON string literal: quoted, escaped body. -/
def quoteString (s : List Char) : List Char :=
  '"' :: (escapeList s ++ ['"'])

/-- Parse the body of a JSON string literal after the opening quote;
returns the decoded content and the input remaining after the closing
quote.  Handles every escape `JSON.parse` accepts inside the basic
multilingual plane. -/
def parseStringBody : List Char → Option (List Char × List Char)
  | [] => none
  | c :: cs =>
    if c = '"' then some ([], cs)
    else if c = '\\' then
      match cs with
      | [] => none
      | e :: cs2 =>
        if e = '"' then
          (parseStringBody cs2).map (fun pr => ('"' :: pr.1, pr.2))
        else if e = '\\' then
          (parseStringBody cs2).map (fun pr => ('\\' :: pr.1, pr.2))
        else if e = '/' then
          (parseStringBody cs2).map (fun pr => ('/' :: pr.1, pr.2))
        else if e = 'b' then
          (parseStringBody cs2).map (fun pr => (Char.ofNat 8 :: pr.1, pr.2))
        else if e = 't' then
          (parseStringBody cs2).map (fun pr => (Char.ofNat 9 :: pr.1, pr.2))
        else if e = 'n' then
          (parseStringBody cs2).map (fun pr => (Char.ofNat 10 :: pr.1, pr.2))
        else if e = 'f' then
          (parseStringBody cs2).map (fun pr => (Char.ofNat 12 :: pr.1, pr.2))
        else if e = 'r' then
          (parseStringBody cs2).map (fun pr => (Char.ofNat 13 :: pr.1, pr.2))
        else if e = 'u' then
          match cs2 with
          | h1 :: cs3 =>
            match cs3 with
            | h2 :: cs4 =>
              match cs4 with
              | h3 :: cs5 =>
                match cs5 with
                | h4 :: cs6 =>
                  (hexVal h1).bind (fun v1 =>
                    (hexVal h2).bind (fun v2 =>
                      (hexVal h3).bind (fun v3 =>
                        (hexVal h4).bind (fun v4 =>
                          (mkChar? (v1 * 4096 + v2 * 256 + v3 * 16 + v4)).bind
                            (fun ch =>
                              (parseStringBody cs6).map
                                (fun pr => (ch :: pr.1, pr.2)))))))
                | [] => none
              | [] => none
            | [] => none
          | [] => none
        else none
    else
      (parseStringBody cs).map (fun pr => (c :: pr.1, pr.2))

/-- A session description as serialized on the wire: the `type` and `sdp`
fields of an `RTCSessionDescriptionInit`. -/
structure SessionDesc where
  type : List Char
  sdp : List Char
deriving DecidableEq

/-- `JSON.stringify` applied to a session description (the argument of
`Buffer.from` at lines 379 and 441): the object braces around
`"type": <string>, "sdp": <string>` with quoted, escaped string
literals and no whitespace. -/
def stringifyDesc (d : SessionDesc) : List Char :=
  Char.ofNat 123 ::
    (quoteString "type".data ++ (':' :: (quoteString d.type ++
      (',' :: (quoteString "sdp".data ++ (':' :: (quoteString d.sdp ++
        [Char.ofNat 125])))))))

/-- Parse one `"key": "value"` pair (no whitespace, as emitted by
`JSON.stringify`). -/
def parsePair (input : List Char) : Option ((List Char × List Char) × List Char) :=
  match input with
  | q :: cs =>
    if q = '"' then
      match parseStringBody cs with
      | some (key, cs1) =>
        match cs1 with
        | colon :: cs2 =>
          if colon = ':' then
            match cs2 with
            | q2 :: cs3 =>
              if q2 = '"' then
                match parseStringBody cs3 with
                | some (value, cs4) => some ((key, value), cs4)
                | none => none
              else none
            | [] => none
          else none
        | [] => none
      | none => none
    else none
  | [] => none

/-- `JSON.parse` restricted to the two-field object produced by
`stringifyDesc`; accepts the keys in either order. -/
def parseDesc (input : List Char) : Option SessionDesc :=
  match input with
  | c :: cs =>
    if c = Char.ofNat 123 then
      match parsePair cs with
      | some ((k1, v1), r1) =>
        match r1 with
        | comma :: r2 =>
          if comma = ',' then
            match parsePair r2 with
            | some ((k2, v2), r3) =>
              match r3 with
              | cb :: r4 =>
                if cb = Char.ofNat 125 ∧ r4 = [] then
                  if k1 = "type".data ∧ k2 = "sdp".data then
                    some { type := v1, sdp := v2 }
                  else if k1 = "sdp".data ∧ k2 = "type".data then
                    some { type := v2, sdp := v1 }
                  else none
                else none
              | [] => none
            | none => none
          else none
        | [] => none
      | none => none
    else none
  | [] => none

/-- The payload encoding used by `_makeCallInternal` (line 379) and
`createAnswer` (line 442): `Buffer.from(JSON.stringify(desc)).toString("base64")`. -/
def encodeDescPayload (d : SessionDesc) : List Char :=
  base64Encode (utf8Encode (stringifyDesc d))

/-- The payload decoding used by `handleIncomingCall` (lines 395-396) and
`handleAnswer` (lines 458-459):
`JSON.parse(Buffer.from(b64, "base64").toString("utf-8"))`. -/
def decodeDescPayload (cs : List Char) : Option SessionDesc :=
  match base64Decode cs with
  | none => none
  | some bytes =>
    match utf8Decode bytes with
    | none => none
    | some s => parseDesc s

/-! ## ICE candidate queue (closure state of `initializePeerConnection`,
lines 75-76, 148-160, 196-235)

The constructor installs `this.handleIceCandidate = async (...) => ...`
(line 197), which shadows the prototype method at lines 465-475, so the
closure version below is the one that runs.  `iceCandidateQueue` is the
closure-local array of line 76; `addedCandidates` records, in order, the
`peerConnection.addIceCandidate` invocations (a failing invocation inside
`processPendingCandidates` is caught and logged, lines 155-157, but the
attempt is still made exactly once). -/

/-- A decoded remote ICE candidate (`new RTCIceCandidate(candidate)`),
identified by its content. -/
structure IceCand where
  data : String
deriving DecidableEq

/-- The state visible to the candidate-handling closures. -/
structure IceState where
  remoteDescription : Option SessionDesc
  iceCandidateQueue : List IceCand
  addedCandidates : List IceCand
deriving DecidableEq

/-- Closure state just after `initializePeerConnection` (line 76): empty
queue, no remote description yet. -/
def iceInit : IceState :=
  { remoteDescription := none, iceCandidateQueue := [], addedCandidates := [] }

/-- The `while` loop of `processPendingCandidates` (lines 148-160):
`shift` each queued candidate in FIFO order and call `addIceCandidate` on
it (errors per candidate are caught and dropped). -/
def drainCandidates : List IceCand → List IceCand → List IceCand
  | added, [] => added
  | added, c :: rest => drainCandidates (added ++ [c]) rest

/-- `processPendingCandidates` as invoked with the current closure state:
drains the whole queue into `addIceCandidate` calls. -/
def processPendingCandidates (s : IceState) : IceState :=
  { s with
    addedCandidates := drainCandidates s.addedCandidates s.iceCandidateQueue,
    iceCandidateQueue := [] }

/-- The patched `handleIceCandidate` (lines 197-225).  `decode` stands for
the platform composite `Buffer.from(_, "base64")` → `JSON.parse` →
`new RTCIceCandidate(_)`; when any of those throws, the `catch` block logs
and rethrows (lines 221-224), which the model renders as `.error`.  With a
remote description present the candidate is added immediately (line 213),
otherwise it is pushed onto the queue (line 219). -/
def handleIceCandidate (decode : String → Option IceCand) (payload : String)
    (s : IceState) : Except String IceState :=
  match decode payload with
  | none => .error "Error handling ICE candidate"
  | some c =>
    if s.remoteDescription.isSome then
      .ok { s with addedCandidates := s.addedCandidates ++ [c] }
    else
      .ok { s with iceCandidateQueue := s.iceCandidateQueue ++ [c] }

/-- The patched `peerConnection.setRemoteDescription` (lines 228-235):
run the original (which commits the description), then flush the pending
queue.  Both the offer path (`handleIncomingCall`, line 397) and the
answer path (`handleAnswer`, line 460) go through this wrapper. -/
def setRemoteDescription (d : SessionDesc) (s : IceState) : IceState :=
  processPendingCandidates { s with remoteDescription := some d }

/-- Deliver a whole list of candidate payloads through
`handleIceCandidate`, stopping at the first rethrown error. -/
def runHandleIce (decode : String → Option IceCand) (ps : List String)
    (s : IceState) : Except String IceState :=
  match ps with
  | [] => .ok s
  | p :: rest =>
    match handleIceCandidate decode p s with
    | .ok s1 => runHandleIce decode rest s1
    | .error e => .error e

/-! ## Media tracks and teardown (`disconnectCall`, lines 489-509) -/

/-- A `MediaStreamTrack` as far as the service observes it. -/
structure MediaTrack where
  id : Nat
  kind : String
  enabled : Bool
deriving DecidableEq

/-- Observable side effects of `disconnectCall`. -/
inductive CallEvent
  | trackStopped (id : Nat)
  | pcClosed
  | stateChange (state : String)
deriving DecidableEq

/-- The fields of the service that `disconnectCall` reads and writes:
`localStream`, `remoteStream`, `peerConnection` and whether an
`onCallStateChange` callback is registered. -/
structure DiscState where
  localStream : Option (List MediaTrack)
  remoteStream : Option (List MediaTrack)
  peerConnectionPresent : Bool
  onCallStateChangeSet : Bool
deriving DecidableEq

/-- `disconnectCall` (lines 489-509): stop every local track, stop every
remote track, close the peer connection if present, null out all three
references, and fire `onCallStateChange("ended")` if a callback is set.
The function is total — the source body contains no `throw`. -/
def disconnectCall (s : DiscState) : DiscState × List CallEvent :=
  let evLocal := match s.localStream with
    | some ts => ts.map (fun t => CallEvent.trackStopped t.id)
    | none => []
  let evRemote := match s.remoteStream with
    | some ts => ts.map (fun t => CallEvent.trackStopped t.id)
    | none => []
  let evPc := if s.peerConnectionPresent then [CallEvent.pcClosed] else []
  let evNotify := if s.onCallStateChangeSet then [CallEvent.stateChange "ended"] else []
  ({ s with localStream := none, remoteStream := none, peerConnectionPresent := false },
   evLocal ++ evRemote ++ evPc ++ evNotify)

/-! ## Peer-connection lifecycle (`initializePeerConnection` lines 27-248,
`resetPeerConnection` lines 250-300, `handleIncomingCall` lines 386-414,
`handleAnswer` lines 453-463)

Every `RTCPeerConnection` ever constructed is kept in a ledger `pcs` keyed
by a fresh `id`, so that "live" links remain countable after the service
drops its reference. -/

/-- Signaling states of an `RTCPeerConnection` the model distinguishes. -/
inductive SigState
  | stable
  | haveLocalOffer
  | haveRemoteOffer
deriving DecidableEq

/-- One `RTCPeerConnection` of the ledger. -/
structure PeerPC where
  id : Nat
  signalingState : SigState
  closed : Bool
  senders : List (Option Nat)
  remoteDescription : Option SessionDesc
deriving DecidableEq

/-- Observable lifecycle events, used to state ordering facts. -/
inductive SvcEvent
  | sendersDetached (pcId : Nat)
  | pcClosed (pcId : Nat)
  | pcCreated (pcId : Nat)
  | mediaAcquired
  | remoteDescSet (pcId : Nat)
deriving DecidableEq

/-- Service fields touched by the lifecycle operations. -/
structure SvcState where
  peerConnection : Option Nat
  pcs : List PeerPC
  localStream : Option (List MediaTrack)
  nextId : Nat
  events : List SvcEvent
deriving DecidableEq

/-- Fresh service (fields initialised at lines 5-7 before the constructor
runs). -/
def svcInit : SvcState :=
  { peerConnection := none, pcs := [], localStream := none, nextId := 0, events := [] }

/-- Look a connection up in the ledger. -/
def findPC (s : SvcState) (i : Nat) : Option PeerPC :=
  s.pcs.find? (fun pc => pc.id = i)

/-- `initializePeerConnection` (lines 27-248): close any existing
connection (lines 31-33), then construct a fresh `RTCPeerConnection` and
install the handlers (line 44).  `newSig` is the signaling state the
browser reports for the freshly constructed link (a real
`RTCPeerConnection` starts in `stable`; the parameter keeps the defensive
check in `resetPeerConnection` reachable). -/
def initializePeerConnection (newSig : SigState) (s : SvcState) : SvcState :=
  let s1 := match s.peerConnection with
    | some i =>
      { s with
        pcs := s.pcs.map (fun (pc : PeerPC) =>
          if pc.id = i then { pc with closed := true } else pc),
        events := s.events ++ [SvcEvent.pcClosed i] }
    | none => s
  { s1 with
    pcs := s1.pcs ++ [{ id := s1.nextId, signalingState := newSig, closed := false,
                        senders := [], remoteDescription := none }],
    peerConnection := some s1.nextId,
    nextId := s1.nextId + 1,
    events := s1.events ++ [SvcEvent.pcCreated s1.nextId] }

/-- `resetPeerConnection` (lines 250-300): if a connection exists, detach
every sender (`replaceTrack(null)` + `removeTrack`, lines 257-267), close
it (line 269) and drop the reference (line 273); then initialize a new
connection and fail with `"Peer connection in invalid state"` if its
signaling state is not `stable` (lines 286-293).  Errors leave the mutated
state in place, so the result carries the state alongside the optional
error. -/
def resetPeerConnection (newSig : SigState) (s : SvcState) : SvcState × Option String :=
  let s1 := match s.peerConnection with
    | some i =>
      { s with
        pcs := s.pcs.map (fun (pc : PeerPC) =>
          if pc.id = i then { pc with senders := [], closed := true } else pc),
        peerConnection := none,
        events := s.events ++ [SvcEvent.sendersDetached i, SvcEvent.pcClosed i] }
    | none => s
  let s2 := initializePeerConnection newSig s1
  match s2.peerConnection with
  | none => (s2, some "Failed to initialize peer connection")
  | some i =>
    match findPC s2 i with
    | none => (s2, some "Failed to initialize peer connection")
    | some pc =>
      if pc.signalingState = SigState.stable then (s2, none)
      else (s2, some "Peer connection in invalid state")

/-- Commit a remote description on the attached connection (the platform
`setRemoteDescription`, successful case). -/
def applyRemoteDescription (d : SessionDesc) (s : SvcState) : SvcState :=
  match s.peerConnection with
  | none => s
  | some i =>
    { s with
      pcs := s.pcs.map (fun (pc : PeerPC) =>
        if pc.id = i then
          { pc with remoteDescription := some d,
                    signalingState := SigState.haveRemoteOffer }
        else pc),
      events := s.events ++ [SvcEvent.remoteDescSet i] }

/-- `addTrack` for every local track (lines 401-409). -/
def addLocalTracks (s : SvcState) : SvcState :=
  match s.peerConnection, s.localStream with
  | some i, some ts =>
    { s with pcs := s.pcs.map (fun (pc : PeerPC) =>
        if pc.id = i then { pc with senders := pc.senders ++ ts.map (fun t => some t.id) }
        else pc) }
  | _, _ => s

/-- `handleIncomingCall` (lines 386-414): reset the peer connection, then
acquire local media if absent (lines 390-392, `media` is the stream the
browser grants), then decode the offer (lines 395-396) — `JSON.parse`
throwing here is logged and rethrown by the `catch` (lines 410-413) with
no rollback — then set the remote description and attach local tracks. -/
def handleIncomingCall (payload : List Char) (newSig : SigState)
    (media : List MediaTrack) (s : SvcState) : SvcState × Option String :=
  match resetPeerConnection newSig s with
  | (s1, some e) => (s1, some e)
  | (s1, none) =>
    let s2 := match s1.localStream with
      | none => { s1 with localStream := some media,
                          events := s1.events ++ [SvcEvent.mediaAcquired] }
      | some _ => s1
    match decodeDescPayload payload with
    | none => (s2, some "DecodeError")
    | some offer => (addLocalTracks (applyRemoteDescription offer s2), none)

/-- `handleAnswer` (lines 453-463): throw if no peer connection (lines
454-456); decode the payload (`JSON.parse` failure rethrows as a decode
error); then call `setRemoteDescription` unconditionally — there is no
signaling-state guard, so in any state other than have-local-offer the
platform call itself raises `InvalidStateError`, which the method does not
catch. -/
def handleAnswer (payload : List Char) (s : SvcState) : SvcState × Option String :=
  match s.peerConnection with
  | none => (s, some "Peer connection not initialized")
  | some i =>
    match decodeDescPayload payload with
    | none => (s, some "DecodeError")
    | some ans =>
      match findPC s i with
      | none => (s, some "Peer connection not initialized")
      | some pc =>
        if pc.signalingState = SigState.haveLocalOffer then
          ({ s with
             pcs := s.pcs.map (fun (q : PeerPC) =>
               if q.id = i then
                 { q with remoteDescription := some ans,
                          signalingState := SigState.stable }
               else q),
             events := s.events ++ [SvcEvent.remoteDescSet i] }, none)
        else (s, some "InvalidStateError")

/-- Number of ledger connections not yet closed. -/
def liveCount (s : SvcState) : Nat :=
  (s.pcs.filter (fun pc => !pc.closed)).length

/-- Ledger well-formedness: distinct ids, ids below `nextId`, every
still-open connection is the attached one, and the attached id was issued
by the ledger. -/
def svcWellFormed (s : SvcState) : Prop :=
  (s.pcs.map (fun pc => pc.id)).Nodup ∧
  (∀ pc ∈ s.pcs, pc.id < s.nextId) ∧
  (∀ pc ∈ s.pcs, pc.closed = false → s.peerConnection = some pc.id) ∧
  (∀ i, s.peerConnection = some i → i < s.nextId)

/-- A syntactically well-formed base64 payload whose content is not JSON
(`base64(utf8("notjson"))`); `JSON.parse` throws on it. -/
def badPayload : List Char := base64Encode (utf8Encode "notjson".data)

/-! ## Connection-state monitoring (lines 68-73, 162-182, 236-243)

`initializePeerConnection` assigns `onconnectionstatechange` three times:
at line 68 (relay state to `onCallStateChange`), at line 162 (call
`tryConnectionRecovery` on `failed`/`disconnected`) and at line 238
(logging only).  Property assignment keeps only the last handler.
`oniceconnectionstatechange` is assigned once (lines 171-182): it calls
`restartIce()` whenever the ICE state is `failed` and always relays the
state string to `onCallStateChange`. -/

/-- Counters and notification log of the monitoring model.
`callFailedNotifs` counts terminal call-failure notifications; no code
path in the source emits one. -/
structure MonState where
  restartIceCalls : Nat
  callStateNotifs : List String
  callFailedNotifs : Nat
deriving DecidableEq

/-- Monitoring state when the handlers are installed. -/
def monInit : MonState :=
  { restartIceCalls := 0, callStateNotifs := [], callFailedNotifs := 0 }

/-- The three bodies successively assigned to `onconnectionstatechange`. -/
inductive ConnHandlerRev
  | relayState
  | recovery
  | loggingOnly
deriving DecidableEq

/-- Assignment order of the three `onconnectionstatechange` bodies
(lines 68, 162, 238). -/
def connectionHandlerAssignments : List ConnHandlerRev :=
  [ConnHandlerRev.relayState, ConnHandlerRev.recovery, ConnHandlerRev.loggingOnly]

/-- Property assignment semantics: the handler in effect is the last one
assigned. -/
def installedConnectionHandler : ConnHandlerRev :=
  connectionHandlerAssignments.getLast (by simp [connectionHandlerAssignments])

/-- Behaviour of each `onconnectionstatechange` body. -/
def applyConnHandler : ConnHandlerRev → String → MonState → MonState
  | ConnHandlerRev.relayState, st, s =>
      { s with callStateNotifs := s.callStateNotifs ++ [st] }
  | ConnHandlerRev.recovery, st, s =>
      if st = "failed" ∨ st = "disconnected" then
        { s with restartIceCalls := s.restartIceCalls + 1 }
      else s
  | ConnHandlerRev.loggingOnly, _, s => s

/-- The `onconnectionstatechange` handler actually in effect
(lines 238-243: it only logs). -/
def onConnectionStateChange (st : String) (s : MonState) : MonState :=
  applyConnHandler installedConnectionHandler st s

/-- The `oniceconnectionstatechange` handler (lines 171-182). -/
def onIceConnectionStateChange (st : String) (s : MonState) : MonState :=
  let s1 := if st = "failed" then { s with restartIceCalls := s.restartIceCalls + 1 } else s
  { s1 with callStateNotifs := s1.callStateNotifs ++ [st] }

/-- A state-change event observed from the browser. -/
inductive ConnEvent
  | conn (st : String)
  | ice (st : String)
deriving DecidableEq

/-- Dispatch one event to the installed handler. -/
def stepConn (s : MonState) (e : ConnEvent) : MonState :=
  match e with
  | ConnEvent.conn st => onConnectionStateChange st s
  | ConnEvent.ice st => onIceConnectionStateChange st s

/-- Run a sequence of state-change events. -/
def runConnEvents (evs : List ConnEvent) (s : MonState) : MonState :=
  evs.foldl stepConn s

/-! ## ICE-server configuration fetch (`webrtcConfig.ts`)

`getTwilioConfig` of `src/config/webrtcConfig.ts` (lines 21-76) is the
exported `getWebRTCConfig`; on any thrown error — network failure, non-OK
HTTP status, or a malformed body whose `ice_servers` is absent (making
`twilioData.ice_servers.map` throw) — the `catch` returns a hardcoded
configuration.  The variant in `src/unnamed/part_000` (lines 1-44) instead
rethrows from its `catch`. -/

/-- One entry of the `ice_servers` array of the Twilio response. -/
structure TwIceServer where
  urls : List String
  username : Option String
  credential : Option String
deriving DecidableEq

/-- The JSON body of a successful token response; `ice_servers := none`
models a malformed body lacking the array. -/
structure TwilioResponse where
  username : String
  password : String
  ice_servers : Option (List TwIceServer)
deriving DecidableEq

/-- Outcome of the `fetch` call. -/
inductive FetchOutcome
  | success (r : TwilioResponse)
  | httpError (status : Nat)
  | networkFailure
deriving DecidableEq

/-- An `RTCConfiguration` as built by the fetchers. -/
structure RTCConfigM where
  iceServers : List TwIceServer
  iceCandidatePoolSize : Nat
  bundlePolicy : String
  rtcpMuxPolicy : String
  iceTransportPolicy : String
deriving DecidableEq

/-- The hardcoded fallback configuration (lines 60-74 of
`webrtcConfig.ts`): three Google STUN URLs, no credentials. -/
def fallbackConfig : RTCConfigM :=
  { iceServers := [{ urls := ["stun:stun1.l.google.com:19302",
                              "stun:stun2.l.google.com:19302",
                              "stun:stun3.l.google.com:19302"],
                     username := none, credential := none }],
    iceCandidatePoolSize := 10,
    bundlePolicy := "max-bundle",
    rtcpMuxPolicy := "require",
    iceTransportPolicy := "all" }

/-- Whether the fetch failed or returned a malformed body. -/
def fetchFailed (f : FetchOutcome) : Prop :=
  match f with
  | FetchOutcome.success r => r.ice_servers = none
  | FetchOutcome.httpError _ => True
  | FetchOutcome.networkFailure => True

instance (f : FetchOutcome) : Decidable (fetchFailed f) := by
  unfold fetchFailed
  exact match f with
  | FetchOutcome.success r => inferInstanceAs (Decidable (r.ice_servers = none))
  | FetchOutcome.httpError _ => inferInstanceAs (Decidable True)
  | FetchOutcome.networkFailure => inferInstanceAs (Decidable True)

/-- `getTwilioConfig` of `webrtcConfig.ts` (lines 21-76): on success, map
the servers, defaulting credentials to the top-level `username`/`password`
(lines 46-50); on any thrown error return `fallbackConfig` (lines 58-75). -/
def getTwilioConfig (f : FetchOutcome) : RTCConfigM :=
  match f with
  | FetchOutcome.success r =>
    match r.ice_servers with
    | some servers =>
      { iceServers := servers.map (fun sv =>
          { urls := sv.urls,
            username := some (sv.username.getD r.username),
            credential := some (sv.credential.getD r.password) }),
        iceCandidatePoolSize := 10,
        bundlePolicy := "max-bundle",
        rtcpMuxPolicy := "require",
        iceTransportPolicy := "all" }
    | none => fallbackConfig
  | FetchOutcome.httpError _ => fallbackConfig
  | FetchOutcome.networkFailure => fallbackConfig

/-- The `getTwilioConfig` variant of `src/unnamed/part_000` (lines 1-44):
its `catch` block rethrows (`throw error`, line 42), so every failure
propagates to the caller. -/
def getTwilioConfigVariant (f : FetchOutcome) : Except String RTCConfigM :=
  match f with
  | FetchOutcome.success r =>
    .ok { iceServers :=
            { urls := ["stun:stun1.l.google.com:19302",
                       "stun:stun2.l.google.com:19302"],
              username := none, credential := none } ::
            (r.ice_servers.getD []).map (fun sv =>
              { urls := sv.urls,
                username := some (sv.username.getD ""),
                credential := some (sv.credential.getD "") }),
          iceCandidatePoolSize := 10,
          bundlePolicy := "max-bundle",
          rtcpMuxPolicy := "require",
          iceTransportPolicy := "relay" }
  | FetchOutcome.httpError _ => .error "HTTP error"
  | FetchOutcome.networkFailure => .error "Network failure"

/-- A configuration is STUN-only when every server URL uses the `stun:`
scheme. -/
def stunOnly (c : RTCConfigM) : Prop :=
  ∀ sv ∈ c.iceServers, ∀ u ∈ sv.urls, "stun:".data.isPrefixOf u.data

instance (c : RTCConfigM) : Decidable (stunOnly c) := by
  unfold stunOnly
  exact List.decidableBAll _ c.iceServers

/-! ## Remote-track accumulator (`ontrack` handler, lines 78-134)

On each incoming track: create the remote stream if absent (lines 87-90);
if a track of the same kind already exists, remove it from the stream and
stop it (lines 93-100); force-enable the incoming track (line 103) and add
it (line 106). -/

/-- Remote-stream state of the `ontrack` handler, with the trace of
`stop()` calls on replaced tracks. -/
structure TrackState where
  remoteStream : Option (List MediaTrack)
  stoppedTracks : List Nat
deriving DecidableEq

/-- State before any track arrived. -/
def trackInit : TrackState :=
  { remoteStream := none, stoppedTracks := [] }

/-- The `ontrack` handler (lines 78-134). -/
def ontrack (t : MediaTrack) (s : TrackState) : TrackState :=
  let stream := s.remoteStream.getD []
  match stream.find? (fun tr => tr.kind = t.kind) with
  | some existing =>
    { remoteStream := some (stream.erase existing ++ [{ t with enabled := true }]),
      stoppedTracks := s.stoppedTracks ++ [existing.id] }
  | none =>
    { remoteStream := some (stream ++ [{ t with enabled := true }]),
      stoppedTracks := s.stoppedTracks }

/-- Deliver a sequence of `ontrack` events starting from the fresh
state. -/
def runTracks (ts : List MediaTrack) : TrackState :=
  ts.foldl (fun s t => ontrack t s) trackInit

/-- At most one track of each kind in a track list. -/
def atMostOnePerKind (l : List MediaTrack) : Prop :=
  ∀ t ∈ l, l.countP (fun u => u.kind = t.kind) ≤ 1

instance (l : List MediaTrack) : Decidable (atMostOnePerKind l) := by
  unfold atMostOnePerKind
  exact List.decidableBAll _ l

/-! # Theorems -/

/-- The drain loop applies exactly the queued candidates, in order. -/
theorem drainCandidates_eq (a q : List IceCand) : drainCandidates a q = a ++ q := by
  induction q generalizing a with
  | nil => simp [drainCandidates]
  | cons c rest ih => simp [drainCandidates, ih, List.append_assoc]

/-- Handling payloads that all decode, while no remote description is set,
only appends the decoded candidates to the queue. -/
theorem runHandleIce_queues (decode : String → Option IceCand) (ps : List String)
    (cs : List IceCand) (h : ps.mapM decode = some cs) (s : IceState)
    (hrd : s.remoteDescription = none) :
    runHandleIce decode ps s =
      .ok { s with iceCandidateQueue := s.iceCandidateQueue ++ cs } := by
  induction ps generalizing cs s with
  | nil =>
    simp only [List.mapM_nil, pure, Option.some.injEq] at h
    subst h
    simp [runHandleIce]
  | cons p rest ih =>
    rw [List.mapM_cons] at h
    cases hp : decode p with
    | none => rw [hp] at h; simp at h
    | some c =>
      rw [hp] at h
      cases hrest : rest.mapM decode with
      | none => rw [hrest] at h; simp at h
      | some cs' =>
        rw [hrest] at h
        simp at h
        subst h
        have step : handleIceCandidate decode p s =
            .ok { s with iceCandidateQueue := s.iceCandidateQueue ++ [c] } := by
          simp [handleIceCandidate, hp, hrd]
        have hrun : runHandleIce decode (p :: rest) s =
            runHandleIce decode rest { s with iceCandidateQueue := s.iceCandidateQueue ++ [c] } := by
          simp [runHandleIce, step]
        rw [hrun, ih cs' hrest _ (by simp [hrd])]
        simp [List.append_assoc]

/-- Claim C1: candidates delivered through `handleIceCandidate` before a
remote description is set are appended to the pending queue in arrival
order; the moment a remote description is committed through the patched
`setRemoteDescription`, every queued candidate is handed to
`addIceCandidate` exactly once, in arrival order, the queue is left empty,
and any candidate arriving afterwards is applied immediately. -/
theorem pending_candidates_flushed_in_order (decode : String → Option IceCand)
    (ps : List String) (cs : List IceCand) (hps : ps.mapM decode = some cs)
    (d : SessionDesc) :
    ∃ s1, runHandleIce decode ps iceInit = .ok s1 ∧
      s1.iceCandidateQueue = cs ∧
      s1.addedCandidates = [] ∧
      (setRemoteDescription d s1).addedCandidates = cs ∧
      (setRemoteDescription d s1).iceCandidateQueue = [] ∧
      (∀ p c, decode p = some c →
        handleIceCandidate decode p (setRemoteDescription d s1) =
          .ok { setRemoteDescription d s1 with addedCandidates := cs ++ [c] }) := by
  refine ⟨{ iceInit with iceCandidateQueue := cs }, ?_, rfl, rfl, ?_, rfl, ?_⟩
  · have := runHandleIce_queues decode ps cs hps iceInit rfl
    simpa [iceInit] using this
  · simp [setRemoteDescription, processPendingCandidates, drainCandidates_eq, iceInit]
  · intro p c hp
    simp [handleIceCandidate, hp, setRemoteDescription, processPendingCandidates,
      drainCandidates_eq, iceInit]

/-- Witness for C1 at a concrete input. -/
theorem pending_candidates_flushed_in_order_witness :
    (["a", "b"].mapM (fun p => some (IceCand.mk p)) = some [IceCand.mk "a", IceCand.mk "b"]) ∧
    ∃ s1, runHandleIce (fun p => some (IceCand.mk p)) ["a", "b"] iceInit = .ok s1 ∧
      s1.iceCandidateQueue = [IceCand.mk "a", IceCand.mk "b"] ∧
      s1.addedCandidates = [] ∧
      (setRemoteDescription ⟨"offer".data, "v=0".data⟩ s1).addedCandidates =
        [IceCand.mk "a", IceCand.mk "b"] ∧
      (setRemoteDescription ⟨"offer".data, "v=0".data⟩ s1).iceCandidateQueue = [] ∧
      (∀ p c, (fun p => some (IceCand.mk p)) p = some c →
        handleIceCandidate (fun p => some (IceCand.mk p)) p
            (setRemoteDescription ⟨"offer".data, "v=0".data⟩ s1) =
          .ok { setRemoteDescription ⟨"offer".data, "v=0".data⟩ s1 with
                addedCandidates := [IceCand.mk "a", IceCand.mk "b"] ++ [c] }) :=
  ⟨rfl, pending_candidates_flushed_in_order (fun p => some (IceCand.mk p))
    ["a", "b"] [IceCand.mk "a", IceCand.mk "b"] rfl ⟨"offer".data, "v=0".data⟩⟩

/-- Counterexample to claim C2 as stated: a candidate payload whose decode
fails makes `handleIceCandidate` return the rethrown error (lines 221-224
end in `throw error`), not a silent drop. -/
theorem bad_candidate_rethrows_counterexample :
    handleIceCandidate (fun p => if p = "good" then some (IceCand.mk "good") else none)
      "bad"
      { remoteDescription := some ⟨"offer".data, "v=0".data⟩,
        iceCandidateQueue := [], addedCandidates := [] } =
      .error "Error handling ICE candidate" := by
  rfl

/-- Claim C2 as amended: a malformed candidate is logged and the error is
rethrown to the caller; the closure state is untouched by the failed call
(the throw happens before any mutation), so subsequent valid candidates
are still processed normally. -/
theorem bad_candidate_logged_and_rethrown (decode : String → Option IceCand)
    (p : String) (hp : decode p = none) (s : IceState) :
    handleIceCandidate decode p s = .error "Error handling ICE candidate" ∧
    (∀ p' c', decode p' = some c' →
      handleIceCandidate decode p' s =
        .ok (if s.remoteDescription.isSome then
               { s with addedCandidates := s.addedCandidates ++ [c'] }
             else
               { s with iceCandidateQueue := s.iceCandidateQueue ++ [c'] })) := by
  constructor
  · simp [handleIceCandidate, hp]
  · intro p' c' hp'
    simp only [handleIceCandidate, hp']
    split <;> simp_all

/-- Witness for the amended C2 at a concrete input. -/
theorem bad_candidate_logged_and_rethrown_witness :
    ((fun p => if p = "good" then some (IceCand.mk "good") else none) "bad" = none) ∧
    handleIceCandidate (fun p => if p = "good" then some (IceCand.mk "good") else none)
      "bad" iceInit = .error "Error handling ICE candidate" ∧
    handleIceCandidate (fun p => if p = "good" then some (IceCand.mk "good") else none)
      "good" iceInit = .ok { iceInit with iceCandidateQueue := [IceCand.mk "good"] } := by
  refine ⟨rfl, ?_, ?_⟩
  · exact (bad_candidate_logged_and_rethrown _ "bad" rfl iceInit).1
  · have h := (bad_candidate_logged_and_rethrown
      (fun p => if p = "good" then some (IceCand.mk "good") else none)
      "bad" rfl iceInit).2 "good" (IceCand.mk "good") rfl
    simpa [iceInit] using h

/-- Counterexample to claim C5 as stated: two consecutive ICE `failed`
events trigger two `restartIce` calls — not exactly one — and no terminal
call-failure notification is ever fired; a `failed` connection-state event
triggers no restart at all, because the handler installed at line 238
overwrote the recovery handler of line 162. -/
theorem ice_restart_not_single_counterexample :
    (runConnEvents [ConnEvent.ice "failed", ConnEvent.ice "failed"] monInit).restartIceCalls = 2 ∧
    (runConnEvents [ConnEvent.ice "failed", ConnEvent.ice "failed"] monInit).callFailedNotifs = 0 ∧
    (runConnEvents [ConnEvent.conn "failed"] monInit).restartIceCalls = 0 := by
  decide

/-- Claim C5 as amended: every `oniceconnectionstatechange` event with
state `failed` triggers one `restartIce` call, with no once-only guard, so
repeated `failed` events trigger repeated restarts; the effective
`onconnectionstatechange` handler is the logging-only final assignment and
performs no recovery; no terminal call-failure notification exists — the
service merely relays each ICE state string to `onCallStateChange`. -/
theorem ice_restart_per_failed_event (evs : List ConnEvent) (s : MonState) :
    (runConnEvents evs s).restartIceCalls =
      s.restartIceCalls + evs.countP (fun e => e == ConnEvent.ice "failed") ∧
    (runConnEvents evs s).callFailedNotifs = s.callFailedNotifs ∧
    installedConnectionHandler = ConnHandlerRev.loggingOnly ∧
    (∀ st m, onConnectionStateChange st m = m) ∧
    (runConnEvents evs s).callStateNotifs =
      s.callStateNotifs ++ evs.filterMap (fun e =>
        match e with
        | ConnEvent.ice st => some st
        | ConnEvent.conn _ => none) := by
  refine ⟨?_, ?_, rfl, fun st m => rfl, ?_⟩
  · induction evs generalizing s with
    | nil => simp [runConnEvents]
    | cons e rest ih =>
      cases e with
      | conn st =>
        simp only [runConnEvents, List.foldl_cons, List.countP_cons] at *
        rw [ih]
        simp [stepConn, onConnectionStateChange, installedConnectionHandler,
          connectionHandlerAssignments, List.getLast, applyConnHandler]
      | ice st =>
        simp only [runConnEvents, List.foldl_cons, List.countP_cons] at *
        rw [ih]
        by_cases hst : st = "failed"
        · subst hst
          simp [stepConn, onIceConnectionStateChange]
          try omega
        · have hne : (ConnEvent.ice st == ConnEvent.ice "failed") = false := by
            simp [hst]
          simp [stepConn, onIceConnectionStateChange, hst, hne]
  · induction evs generalizing s with
    | nil => simp [runConnEvents]
    | cons e rest ih =>
      cases e with
      | conn st =>
        simp only [runConnEvents, List.foldl_cons] at *
        rw [ih]
        simp [stepConn, onConnectionStateChange, installedConnectionHandler,
          connectionHandlerAssignments, List.getLast, applyConnHandler]
      | ice st =>
        simp only [runConnEvents, List.foldl_cons] at *
        rw [ih]
        simp [stepConn, onIceConnectionStateChange]
        split <;> simp
  · induction evs generalizing s with
    | nil => simp [runConnEvents]
    | cons e rest ih =>
      cases e with
      | conn st =>
        simp only [runConnEvents, List.foldl_cons, List.filterMap_cons] at *
        rw [ih]
        simp [stepConn, onConnectionStateChange, installedConnectionHandler,
          connectionHandlerAssignments, List.getLast, applyConnHandler]
      | ice st =>
        simp only [runConnEvents, List.foldl_cons, List.filterMap_cons] at *
        rw [ih]
        simp only [stepConn, onIceConnectionStateChange]
        split <;> simp [List.append_assoc]

/-- Counterexample to claim C8 as stated: the `getTwilioConfig` variant of
`src/unnamed/part_000` propagates a fetch failure to its caller instead of
returning the STUN-only fallback. -/
theorem config_variant_propagates_counterexample :
    getTwilioConfigVariant (FetchOutcome.httpError 500) = .error "HTTP error" := rfl

/-- Claim C8 as amended: the primary `getTwilioConfig` of
`webrtcConfig.ts` returns the hardcoded STUN-only fallback configuration
on every failed or malformed fetch, while the `part_000` variant
propagates the error to its caller. -/
theorem primary_config_falls_back_stun_only (f : FetchOutcome) (h : fetchFailed f) :
    getTwilioConfig f = fallbackConfig ∧
    stunOnly (getTwilioConfig f) ∧
    (∀ st : Nat, getTwilioConfigVariant (FetchOutcome.httpError st) = .error "HTTP error") ∧
    getTwilioConfigVariant FetchOutcome.networkFailure = .error "Network failure" := by
  have hfb : getTwilioConfig f = fallbackConfig := by
    cases f with
    | success r =>
      have : r.ice_servers = none := h
      simp [getTwilioConfig, this]
    | httpError st => rfl
    | networkFailure => rfl
  refine ⟨hfb, ?_, fun st => rfl, rfl⟩
  rw [hfb]
  decide

/-- Witness for the amended C8 at a concrete failing fetch. -/
theorem primary_config_falls_back_stun_only_witness :
    fetchFailed FetchOutcome.networkFailure ∧
    getTwilioConfig FetchOutcome.networkFailure = fallbackConfig ∧
    stunOnly (getTwilioConfig FetchOutcome.networkFailure) :=
  ⟨by decide,
   (primary_config_falls_back_stun_only FetchOutcome.networkFailure (by decide)).1,
   (primary_config_falls_back_stun_only FetchOutcome.networkFailure (by decide)).2.1⟩

/-- Claim C3: `disconnectCall` is total (the body has no throw path) and
idempotent — after one call every owned reference is cleared, every track
of both streams has received `stop()`, the peer connection is closed when
present and the collaborator is notified of the terminal state; calling it
any further number of times leaves the state fixed, a repeat call only
re-firing the terminal notification. -/
theorem disconnectCall_idempotent (s : DiscState) :
    ((disconnectCall s).1.localStream = none ∧
     (disconnectCall s).1.remoteStream = none ∧
     (disconnectCall s).1.peerConnectionPresent = false) ∧
    (∀ ts, s.localStream = some ts →
      ∀ t ∈ ts, CallEvent.trackStopped t.id ∈ (disconnectCall s).2) ∧
    (∀ ts, s.remoteStream = some ts →
      ∀ t ∈ ts, CallEvent.trackStopped t.id ∈ (disconnectCall s).2) ∧
    (s.peerConnectionPresent = true → CallEvent.pcClosed ∈ (disconnectCall s).2) ∧
    (s.onCallStateChangeSet = true →
      CallEvent.stateChange "ended" ∈ (disconnectCall s).2) ∧
    (∀ n : Nat, (fun st => (disconnectCall st).1)^[n + 1] s = (disconnectCall s).1) ∧
    (disconnectCall ((disconnectCall s).1)).2 =
      if s.onCallStateChangeSet then [CallEvent.stateChange "ended"] else [] := by
  have hfix : (disconnectCall ((disconnectCall s).1)).1 = (disconnectCall s).1 := by
    simp [disconnectCall]
  refine ⟨⟨rfl, rfl, rfl⟩, ?_, ?_, ?_, ?_, ?_, ?_⟩
  · intro ts hts t ht
    simp only [disconnectCall, hts]
    exact List.mem_append_left _ (List.mem_append_left _
      (List.mem_append_left _ (List.mem_map_of_mem _ ht)))
  · intro ts hts t ht
    simp only [disconnectCall, hts]
    exact List.mem_append_left _ (List.mem_append_left _
      (List.mem_append_right _ (List.mem_map_of_mem _ ht)))
  · intro hpc
    simp only [disconnectCall, hpc, if_true]
    exact List.mem_append_left _ (List.mem_append_right _ (List.mem_singleton_self _))
  · intro hcb
    simp only [disconnectCall, hcb, if_true]
    exact List.mem_append_right _ (List.mem_singleton_self _)
  · intro n
    induction n with
    | zero => simp
    | succ m ih =>
      rw [Function.iterate_succ_apply', ih, hfix]
  · simp [disconnectCall]

/-- Witness for C3 at a concrete session state. -/
theorem disconnectCall_idempotent_witness :
    (disconnectCall { localStream := some [{ id := 1, kind := "video", enabled := true }],
                      remoteStream := none, peerConnectionPresent := true,
                      onCallStateChangeSet := true }).1.localStream = none ∧
    CallEvent.trackStopped 1 ∈
      (disconnectCall { localStream := some [{ id := 1, kind := "video", enabled := true }],
                        remoteStream := none, peerConnectionPresent := true,
                        onCallStateChangeSet := true }).2 ∧
    CallEvent.pcClosed ∈
      (disconnectCall { localStream := some [{ id := 1, kind := "video", enabled := true }],
                        remoteStream := none, peerConnectionPresent := true,
                        onCallStateChangeSet := true }).2 := by
  have h := disconnectCall_idempotent
    { localStream := some [{ id := 1, kind := "video", enabled := true }],
      remoteStream := none, peerConnectionPresent := true,
      onCallStateChangeSet := true }
  exact ⟨h.1.1,
    h.2.1 [{ id := 1, kind := "video", enabled := true }] rfl
      { id := 1, kind := "video", enabled := true } (List.mem_singleton_self _),
    h.2.2.2.1 rfl⟩

/-- `countP` drops by exactly one when erasing a member that satisfies the
predicate. -/
theorem countP_erase_of_mem {α : Type} [DecidableEq α] (p : α → Bool) (a : α)
    (l : List α) (ha : a ∈ l) (hpa : p a = true) :
    (l.erase a).countP p + 1 = l.countP p := by
  induction l with
  | nil => cases ha
  | cons b l ih =>
    rw [List.erase_cons]
    by_cases hb : b = a
    · subst hb
      simp [List.countP_cons, hpa]
    · have hbeq : (b == a) = false := by simp [hb]
      rw [hbeq]
      simp only [Bool.false_eq_true, if_false, List.countP_cons]
      have ha' : a ∈ l := by
        rcases List.mem_cons.mp ha with h | h
        · exact absurd h.symm hb
        · exact h
      rw [← ih ha']
      split <;> omega

/-- Unfolding `ontrack` when a same-kind track exists. -/
theorem ontrack_found (t : MediaTrack) (s : TrackState) (ex : MediaTrack)
    (h : (s.remoteStream.getD []).find? (fun tr => tr.kind = t.kind) = some ex) :
    ontrack t s =
      { remoteStream :=
          some ((s.remoteStream.getD []).erase ex ++ [{ t with enabled := true }]),
        stoppedTracks := s.stoppedTracks ++ [ex.id] } := by
  simp only [ontrack, h]

/-- Unfolding `ontrack` when no same-kind track exists. -/
theorem ontrack_notfound (t : MediaTrack) (s : TrackState)
    (h : (s.remoteStream.getD []).find? (fun tr => tr.kind = t.kind) = none) :
    ontrack t s =
      { remoteStream := some ((s.remoteStream.getD []) ++ [{ t with enabled := true }]),
        stoppedTracks := s.stoppedTracks } := by
  simp only [ontrack, h]

/-- One `ontrack` step preserves the one-track-per-kind invariant. -/
theorem ontrack_preserves_invariant (t : MediaTrack) (s : TrackState)
    (hinv : atMostOnePerKind (s.remoteStream.getD [])) :
    atMostOnePerKind ((ontrack t s).remoteStream.getD []) := by
  cases hfind : (s.remoteStream.getD []).find? (fun tr => tr.kind = t.kind) with
  | none =>
    rw [ontrack_notfound t s hfind]
    set l := s.remoteStream.getD [] with hl
    have hnone : ∀ x ∈ l, ¬(decide (x.kind = t.kind) = true) :=
      List.find?_eq_none.mp hfind
    intro u hu
    simp only [Option.getD_some] at hu ⊢
    rcases List.mem_append.mp hu with hul | hut
    · have hk : ¬(u.kind = t.kind) := by
        have := hnone u hul
        simpa using this
      rw [List.countP_append]
      have h2 : List.countP (fun v => decide (v.kind = u.kind))
          [{ t with enabled := true }] = 0 := by
        simp [List.countP_cons]
        intro hek
        exact hk hek.symm
      rw [h2]
      have := hinv u hul
      omega
    · have hut' : u = { t with enabled := true } := by simpa using hut
      subst hut'
      show List.countP (fun v => decide (v.kind = t.kind))
        (l ++ [{ t with enabled := true }]) ≤ 1
      rw [List.countP_append]
      have h1 : List.countP (fun v => decide (v.kind = t.kind)) l = 0 := by
        rw [List.countP_eq_zero]
        intro x hx
        simpa using hnone x hx
      rw [h1]
      simp [List.countP_cons]
  | some ex =>
    rw [ontrack_found t s ex hfind]
    set l := s.remoteStream.getD [] with hl
    have hex_mem : ex ∈ l := List.mem_of_find?_eq_some hfind
    have hex_kind : ex.kind = t.kind := by
      have := List.find?_some hfind
      simpa using this
    intro u hu
    simp only [Option.getD_some] at hu ⊢
    rcases List.mem_append.mp hu with hul | hut
    · have hul' : u ∈ l := (List.erase_sublist ex l).mem hul
      by_cases hk : u.kind = t.kind
      · rw [List.countP_append]
        have h2 : List.countP (fun v => decide (v.kind = u.kind))
            [{ t with enabled := true }] = 1 := by
          simp [List.countP_cons, hk]
        rw [h2]
        have herase : (l.erase ex).countP (fun v => decide (v.kind = u.kind)) + 1 =
            l.countP (fun v => decide (v.kind = u.kind)) := by
          apply countP_erase_of_mem
          · exact hex_mem
          · simp [hex_kind, hk]
        have hle := hinv u hul'
        omega
      · rw [List.countP_append]
        have h2 : List.countP (fun v => decide (v.kind = u.kind))
            [{ t with enabled := true }] = 0 := by
          simp [List.countP_cons]
          intro hek
          exact hk hek.symm
        rw [h2]
        have hsub := (List.erase_sublist ex l).countP_le
          (fun v => decide (v.kind = u.kind))
        have hle := hinv u hul'
        omega
    · have hut' : u = { t with enabled := true } := by simpa using hut
      subst hut'
      show List.countP (fun v => decide (v.kind = t.kind))
        (l.erase ex ++ [{ t with enabled := true }]) ≤ 1
      rw [List.countP_append]
      have herase : (l.erase ex).countP (fun v => decide (v.kind = t.kind)) + 1 =
          l.countP (fun v => decide (v.kind = t.kind)) := by
        apply countP_erase_of_mem
        · exact hex_mem
        · simp [hex_kind]
      have hle := hinv ex hex_mem
      simp only [hex_kind] at hle
      have h2 : List.countP (fun v => decide (v.kind = t.kind))
          [{ t with enabled := true }] = 1 := by
        simp [List.countP_cons]
      rw [h2]
      omega

/-- Claim C10: after any sequence of `ontrack` events the remote stream
holds at most one track of each kind, and when an incoming track's kind
matches an existing one the existing track is removed from the stream and
stopped before the (force-enabled) new track is appended. -/
theorem remote_stream_one_track_per_kind :
    (∀ ts : List MediaTrack, atMostOnePerKind ((runTracks ts).remoteStream.getD [])) ∧
    (∀ (t : MediaTrack) (s : TrackState) (ex : MediaTrack),
      (s.remoteStream.getD []).find? (fun tr => tr.kind = t.kind) = some ex →
      (ontrack t s).stoppedTracks = s.stoppedTracks ++ [ex.id] ∧
      (ontrack t s).remoteStream =
        some ((s.remoteStream.getD []).erase ex ++ [{ t with enabled := true }])) := by
  constructor
  · intro ts
    have : ∀ s : TrackState, atMostOnePerKind (s.remoteStream.getD []) →
        atMostOnePerKind ((ts.foldl (fun s t => ontrack t s) s).remoteStream.getD []) := by
      induction ts with
      | nil => intro s hs; simpa using hs
      | cons t rest ih =>
        intro s hs
        simp only [List.foldl_cons]
        exact ih (ontrack t s) (ontrack_preserves_invariant t s hs)
    apply this trackInit
    intro u hu
    simp [trackInit] at hu
  · intro t s ex hfind
    rw [ontrack_found t s ex hfind]
    exact ⟨rfl, rfl⟩

/-- Witness for C10 at a concrete event sequence: a second video track
replaces the first, which is stopped. -/
theorem remote_stream_one_track_per_kind_witness :
    atMostOnePerKind ((runTracks [⟨1, "video", true⟩, ⟨2, "audio", true⟩,
      ⟨3, "video", true⟩]).remoteStream.getD []) ∧
    (({ remoteStream := some [⟨1, "video", true⟩], stoppedTracks := [] } :
        TrackState).remoteStream.getD []).find?
        (fun tr => tr.kind = (⟨3, "video", true⟩ : MediaTrack).kind) =
      some ⟨1, "video", true⟩ ∧
    (ontrack ⟨3, "video", true⟩
      { remoteStream := some [⟨1, "video", true⟩], stoppedTracks := [] }).stoppedTracks = [1] :=
  ⟨remote_stream_one_track_per_kind.1 [⟨1, "video", true⟩, ⟨2, "audio", true⟩, ⟨3, "video", true⟩],
   by decide,
   by
    have h := remote_stream_one_track_per_kind.2 ⟨3, "video", true⟩
      { remoteStream := some [⟨1, "video", true⟩], stoppedTracks := [] }
      ⟨1, "video", true⟩ (by decide)
    simpa using h.1⟩

/-- Counterexample to claim C7 as stated: with no peer connection (one way
a session can fail the local-offer precondition) `handleAnswer` raises
`"Peer connection not initialized"` on a perfectly well-formed payload,
and with a connection in the stable state it raises the platform
`InvalidStateError` — in neither case is it a warning-logged no-op. -/
theorem handleAnswer_wrong_state_raises_counterexample :
    (handleAnswer (encodeDescPayload ⟨"answer".data, "v=0".data⟩) svcInit).2 =
      some "Peer connection not initialized" ∧
    (handleAnswer (encodeDescPayload ⟨"answer".data, "v=0".data⟩)
      { peerConnection := some 0,
        pcs := [{ id := 0, signalingState := SigState.stable, closed := false,
                  senders := [], remoteDescription := none }],
        localStream := none, nextId := 1, events := [] }).2 =
      some "InvalidStateError" := by
  constructor
  · rfl
  · decide

/-- Claim C7 as amended: `handleAnswer` performs no signaling-state check.
With no peer connection it throws; with one attached it fails with a
decode error exactly on malformed payloads, raises the platform
`InvalidStateError` when no local offer is pending, and otherwise applies
the answer unconditionally. -/
theorem handleAnswer_no_state_check (payload : List Char) (s : SvcState) :
    (s.peerConnection = none →
      handleAnswer payload s = (s, some "Peer connection not initialized")) ∧
    (∀ i pc, s.peerConnection = some i → findPC s i = some pc →
      (decodeDescPayload payload = none →
        handleAnswer payload s = (s, some "DecodeError")) ∧
      (∀ ans, decodeDescPayload payload = some ans →
        pc.signalingState ≠ SigState.haveLocalOffer →
        handleAnswer payload s = (s, some "InvalidStateError")) ∧
      (∀ ans, decodeDescPayload payload = some ans →
        pc.signalingState = SigState.haveLocalOffer →
        (handleAnswer payload s).2 = none)) := by
  constructor
  · intro hpc
    simp [handleAnswer, hpc]
  · intro i pc hpc hfind
    refine ⟨?_, ?_, ?_⟩
    · intro hdec
      simp [handleAnswer, hpc, hdec]
    · intro ans hdec hsig
      simp [handleAnswer, hpc, hdec, hfind, hsig]
    · intro ans hdec hsig
      simp [handleAnswer, hpc, hdec, hfind, hsig]

/-- Witness for the amended C7 at a concrete input. -/
theorem handleAnswer_no_state_check_witness :
    svcInit.peerConnection = none ∧
    handleAnswer (encodeDescPayload ⟨"answer".data, "v=0".data⟩) svcInit =
      (svcInit, some "Peer connection not initialized") :=
  ⟨rfl, (handleAnswer_no_state_check
    (encodeDescPayload ⟨"answer".data, "v=0".data⟩) svcInit).1 rfl⟩

/-- `find?` skips a prefix on which the predicate fails everywhere. -/
theorem find?_append_right {α : Type} (p : α → Bool) (l1 l2 : List α)
    (h : ∀ x ∈ l1, p x = false) :
    List.find? p (l1 ++ l2) = List.find? p l2 := by
  induction l1 with
  | nil => simp
  | cons b l ih =>
    rw [List.cons_append, List.find?_cons_of_neg _ (by simp [h b (by simp)]),
      ih (fun x hx => h x (by simp [hx]))]

/-- Closing the attached connection leaves no live connection in a
well-formed ledger. -/
theorem filter_live_close_attached (l : List PeerPC) (i : Nat)
    (h : ∀ pc ∈ l, pc.closed = false → pc.id = i) :
    (l.map (fun (pc : PeerPC) =>
      if pc.id = i then { pc with senders := [], closed := true } else pc)).filter
        (fun pc => !pc.closed) = [] := by
  induction l with
  | nil => rfl
  | cons b l ih =>
    simp only [List.map_cons, List.filter_cons]
    by_cases hb : b.id = i
    · rw [if_pos hb]
      simp only [Bool.not_true, Bool.false_eq_true, if_false]
      exact ih (fun pc hpc => h pc (by simp [hpc]))
    · rw [if_neg hb]
      have hbc : b.closed = true := by
        by_contra hc
        exact hb (h b (by simp) (by simpa using hc))
      simp only [hbc, Bool.not_true, Bool.false_eq_true, if_false]
      exact ih (fun pc hpc => h pc (by simp [hpc]))

/-- A ledger of closed connections has no live connection. -/
theorem filter_live_all_closed (l : List PeerPC)
    (h : ∀ pc ∈ l, pc.closed = true) :
    l.filter (fun pc => !pc.closed) = [] := by
  induction l with
  | nil => rfl
  | cons b l ih =>
    simp only [List.filter_cons, h b (by simp), Bool.not_true, Bool.false_eq_true, if_false]
    exact ih (fun pc hpc => h pc (by simp [hpc]))

/-- The close-attached map preserves ids. -/
theorem map_close_preserves_ids (l : List PeerPC) (i : Nat) :
    (l.map (fun (pc : PeerPC) =>
      if pc.id = i then { pc with senders := [], closed := true } else pc)).map
        (fun pc => pc.id) = l.map (fun pc => pc.id) := by
  rw [List.map_map]
  apply List.map_congr_left
  intro pc _
  by_cases hb : pc.id = i <;> simp [hb]

/-- Computation of `resetPeerConnection` when no connection is attached
and all ledger ids are fresh: the only effect is creating the new link. -/
theorem reset_no_existing (s : SvcState) (newSig : SigState)
    (hpc : s.peerConnection = none) (hlt : ∀ pc ∈ s.pcs, pc.id < s.nextId) :
    resetPeerConnection newSig s =
      ({ s with
         pcs := s.pcs ++ [{ id := s.nextId, signalingState := newSig, closed := false,
                            senders := [], remoteDescription := none }],
         peerConnection := some s.nextId,
         nextId := s.nextId + 1,
         events := s.events ++ [SvcEvent.pcCreated s.nextId] },
       if newSig = SigState.stable then none
       else some "Peer connection in invalid state") := by
  simp only [resetPeerConnection, initializePeerConnection, hpc]
  have hfind : findPC
      { s with
        pcs := s.pcs ++ [{ id := s.nextId, signalingState := newSig, closed := false,
                           senders := [], remoteDescription := none }],
        peerConnection := some s.nextId,
        nextId := s.nextId + 1,
        events := s.events ++ [SvcEvent.pcCreated s.nextId] } s.nextId =
      some { id := s.nextId, signalingState := newSig, closed := false,
             senders := [], remoteDescription := none } := by
    unfold findPC
    simp only
    rw [find?_append_right]
    · simp [List.find?_cons]
    · intro pc hpcm
      simp only [decide_eq_false_iff_not]
      exact Nat.ne_of_lt (hlt pc hpcm)
  rw [hfind]
  by_cases hsig : newSig = SigState.stable
  · simp [hsig]
  · simp [hsig]

/-- Claim C6: after `resetPeerConnection` at most one ledger connection is
live and it is the freshly constructed one; when a previous connection
existed its senders were detached and it was closed, in that order, before
the new connection was constructed; the operation fails with the
link-initialization error exactly when the new link's signaling state is
not `stable`; and with no previous connection the whole effect is the
creation of the new link. -/
theorem resetPeerConnection_single_live_link (s : SvcState) (newSig : SigState)
    (hwf : svcWellFormed s) :
    liveCount (resetPeerConnection newSig s).1 ≤ 1 ∧
    (resetPeerConnection newSig s).1.peerConnection = some s.nextId ∧
    svcWellFormed (resetPeerConnection newSig s).1 ∧
    (∀ i, s.peerConnection = some i →
      (∀ pc ∈ (resetPeerConnection newSig s).1.pcs, pc.id = i →
        pc.closed = true ∧ pc.senders = []) ∧
      (resetPeerConnection newSig s).1.events =
        s.events ++ [SvcEvent.sendersDetached i, SvcEvent.pcClosed i,
                     SvcEvent.pcCreated s.nextId]) ∧
    ((resetPeerConnection newSig s).2 =
      if newSig = SigState.stable then none
      else some "Peer connection in invalid state") ∧
    (s.peerConnection = none →
      (resetPeerConnection newSig s).1 =
        { s with
          pcs := s.pcs ++ [{ id := s.nextId, signalingState := newSig, closed := false,
                             senders := [], remoteDescription := none }],
          peerConnection := some s.nextId,
          nextId := s.nextId + 1,
          events := s.events ++ [SvcEvent.pcCreated s.nextId] }) := by
  obtain ⟨hnodup, hlt, hlive, hatt⟩ := hwf
  cases hpc : s.peerConnection with
  | none =>
    have hres := reset_no_existing s newSig hpc hlt
    rw [hres]
    refine ⟨?_, rfl, ?_, ?_, rfl, fun _ => rfl⟩
    · simp only [liveCount]
      rw [List.filter_append]
      rw [filter_live_all_closed s.pcs (fun pc hm => by
        by_contra hc
        have := hlive pc hm (by simpa using hc)
        rw [hpc] at this
        cases this)]
      simp
    · refine ⟨?_, ?_, ?_, ?_⟩
      · simp only [List.map_append, List.map_cons, List.map_nil]
        rw [List.nodup_append]
        refine ⟨hnodup, List.nodup_singleton _, ?_⟩
        intro a ha hb
        simp only [List.mem_singleton] at hb
        subst hb
        obtain ⟨pc, hpcm, hpcid⟩ := List.mem_map.mp ha
        exact absurd hpcid (Nat.ne_of_lt (hlt pc hpcm))
      · intro pc hm
        rcases List.mem_append.mp hm with h1 | h1
        · exact Nat.lt_succ_of_lt (hlt pc h1)
        · simp only [List.mem_singleton] at h1
          subst h1
          exact Nat.lt_succ_self _
      · intro pc hm hopen
        rcases List.mem_append.mp hm with h1 | h1
        · have := hlive pc h1 hopen
          rw [hpc] at this
          cases this
        · simp only [List.mem_singleton] at h1
          subst h1
          rfl
      · intro j hj
        have := (Option.some.injEq _ _).mp hj
        subst this
        exact Nat.lt_succ_self _
    · intro i hi
      simp at hi
  | some i =>
    have hres : resetPeerConnection newSig s =
        ({ s with
           pcs := (s.pcs.map (fun (pc : PeerPC) =>
                    if pc.id = i then { pc with senders := [], closed := true } else pc))
                  ++ [{ id := s.nextId, signalingState := newSig, closed := false,
                        senders := [], remoteDescription := none }],
           peerConnection := some s.nextId,
           nextId := s.nextId + 1,
           events := (s.events ++ [SvcEvent.sendersDetached i, SvcEvent.pcClosed i])
                     ++ [SvcEvent.pcCreated s.nextId] },
         if newSig = SigState.stable then none
         else some "Peer connection in invalid state") := by
      simp only [resetPeerConnection, initializePeerConnection, hpc]
      have hids : ∀ pc ∈ s.pcs.map (fun (pc : PeerPC) =>
          if pc.id = i then { pc with senders := [], closed := true } else pc),
          pc.id < s.nextId := by
        intro pc hm
        obtain ⟨q, hqm, hq⟩ := List.mem_map.mp hm
        subst hq
        by_cases hb : q.id = i
        · rw [if_pos hb]
          exact hlt q hqm
        · rw [if_neg hb]
          exact hlt q hqm
      have hfind : List.find? (fun pc => decide (pc.id = s.nextId))
          ((s.pcs.map (fun (pc : PeerPC) =>
             if pc.id = i then { pc with senders := [], closed := true } else pc))
           ++ [{ id := s.nextId, signalingState := newSig, closed := false,
                 senders := [], remoteDescription := none }]) =
          some { id := s.nextId, signalingState := newSig, closed := false,
                 senders := [], remoteDescription := none } := by
        rw [find?_append_right]
        · simp [List.find?_cons]
        · intro pc hpcm
          simp only [decide_eq_false_iff_not]
          exact Nat.ne_of_lt (hids pc hpcm)
      simp only [findPC]
      rw [hfind]
      by_cases hsig : newSig = SigState.stable
      · simp [hsig]
      · simp [hsig]
    rw [hres]
    have hclosedmap : ∀ pc ∈ s.pcs.map (fun (pc : PeerPC) =>
        if pc.id = i then { pc with senders := [], closed := true } else pc),
        pc.id = i → pc.closed = true ∧ pc.senders = [] := by
      intro pc hm hid
      obtain ⟨q, hqm, hq⟩ := List.mem_map.mp hm
      subst hq
      by_cases hb : q.id = i
      · simp [hb]
      · simp only [if_neg hb]
        simp only [if_neg hb] at hid
        exact absurd hid hb
    refine ⟨?_, rfl, ?_, ?_, rfl, ?_⟩
    · simp only [liveCount]
      rw [List.filter_append]
      rw [filter_live_close_attached s.pcs i (fun pc hm hopen => by
        have := hlive pc hm hopen
        rw [hpc] at this
        exact (Option.some.injEq _ _).mp this.symm)]
      simp
    · refine ⟨?_, ?_, ?_, ?_⟩
      · simp only [List.map_append, List.map_cons, List.map_nil]
        rw [map_close_preserves_ids]
        rw [List.nodup_append]
        refine ⟨hnodup, List.nodup_singleton _, ?_⟩
        intro a ha hb
        simp only [List.mem_singleton] at hb
        subst hb
        obtain ⟨pc, hpcm, hpcid⟩ := List.mem_map.mp ha
        exact absurd hpcid (Nat.ne_of_lt (hlt pc hpcm))
      · intro pc hm
        rcases List.mem_append.mp hm with h1 | h1
        · obtain ⟨q, hqm, hq⟩ := List.mem_map.mp h1
          subst hq
          have hql := hlt q hqm
          by_cases hb : q.id = i
          · rw [if_pos hb]
            show q.id < s.nextId + 1
            omega
          · rw [if_neg hb]
            show q.id < s.nextId + 1
            omega
        · simp only [List.mem_singleton] at h1
          subst h1
          exact Nat.lt_succ_self _
      · intro pc hm hopen
        rcases List.mem_append.mp hm with h1 | h1
        · obtain ⟨q, hqm, hq⟩ := List.mem_map.mp h1
          subst hq
          by_cases hb : q.id = i
          · simp [hb] at hopen
          · simp only [if_neg hb] at hopen
            have := hlive q hqm hopen
            rw [hpc] at this
            exact absurd ((Option.some.injEq _ _).mp this.symm) hb
        · simp only [List.mem_singleton] at h1
          subst h1
          rfl
      · intro j hj
        have := (Option.some.injEq _ _).mp hj
        subst this
        exact Nat.lt_succ_self _
    · intro j hj
      have hij : i = j := (Option.some.injEq _ _).mp hj
      subst hij
      have hjlt : i < s.nextId := hatt i hpc
      refine ⟨?_, ?_⟩
      · intro pc hm hid
        rcases List.mem_append.mp hm with h1 | h1
        · exact hclosedmap pc h1 hid
        · simp only [List.mem_singleton] at h1
          subst h1
          exact absurd hid (Nat.ne_of_lt hjlt).symm
      · simp [List.append_assoc]
    · intro hnone
      simp at hnone

/-- Witness for C6 at a concrete state. -/
theorem resetPeerConnection_single_live_link_witness :
    svcWellFormed svcInit ∧
    liveCount (resetPeerConnection SigState.stable svcInit).1 ≤ 1 ∧
    (resetPeerConnection SigState.stable svcInit).1.peerConnection = some svcInit.nextId := by
  have hwf : svcWellFormed svcInit := by
    refine ⟨by simp [svcInit], ?_, ?_, ?_⟩
    · intro pc hm
      simp [svcInit] at hm
    · intro pc hm
      simp [svcInit] at hm
    · intro i hi
      simp [svcInit] at hi
  have h := resetPeerConnection_single_live_link svcInit SigState.stable hwf
  exact ⟨hwf, h.1, h.2.1⟩

/-- Counterexample to claim C4 as stated: a payload that fails to decode
still leaves `handleIncomingCall` having created a fresh peer connection
and acquired local media, because the reset and the media acquisition
precede the decode; the session is not left unchanged. -/
theorem handleIncomingCall_not_atomic_counterexample :
    (handleIncomingCall badPayload SigState.stable
      [{ id := 1, kind := "video", enabled := true }] svcInit).2 = some "DecodeError" ∧
    (handleIncomingCall badPayload SigState.stable
      [{ id := 1, kind := "video", enabled := true }] svcInit).1.peerConnection = some 0 ∧
    (handleIncomingCall badPayload SigState.stable
      [{ id := 1, kind := "video", enabled := true }] svcInit).1.localStream =
      some [{ id := 1, kind := "video", enabled := true }] := by
  decide

/-- Claim C4 as amended: when `handleIncomingCall` receives an
undecodable payload it fails with the decode error, but only after
`resetPeerConnection` has constructed a fresh PeerLink and local media has
been acquired; no rollback occurs, so the session is not left unchanged.
-/
theorem handleIncomingCall_decode_failure_after_setup (payload : List Char)
    (media : List MediaTrack) (s : SvcState)
    (hbad : decodeDescPayload payload = none)
    (hpc : s.peerConnection = none) (hls : s.localStream = none)
    (hlt : ∀ pc ∈ s.pcs, pc.id < s.nextId) :
    (handleIncomingCall payload SigState.stable media s).2 = some "DecodeError" ∧
    (handleIncomingCall payload SigState.stable media s).1.peerConnection = some s.nextId ∧
    (handleIncomingCall payload SigState.stable media s).1.localStream = some media := by
  have hres := reset_no_existing s SigState.stable hpc hlt
  simp only [handleIncomingCall, hres]
  simp [hls, hbad]

/-- Witness for the amended C4 at a concrete input. -/
theorem handleIncomingCall_decode_failure_after_setup_witness :
    decodeDescPayload badPayload = none ∧
    (handleIncomingCall badPayload SigState.stable
      [{ id := 1, kind := "video", enabled := true }] svcInit).2 = some "DecodeError" ∧
    (handleIncomingCall badPayload SigState.stable
      [{ id := 1, kind := "video", enabled := true }] svcInit).1.localStream =
      some [{ id := 1, kind := "video", enabled := true }] := by
  have h := handleIncomingCall_decode_failure_after_setup badPayload
    [{ id := 1, kind := "video", enabled := true }] svcInit
    (by decide) rfl rfl (by intro pc hm; simp [svcInit] at hm)
  exact ⟨by decide, h.1, h.2.2⟩

/-- The base64 alphabet lookup inverts the alphabet map on 6-bit values. -/
theorem base64Val_base64Char {n : Nat} (h : n < 64) :
    base64Val (base64Char n) = some n := by
  have hall : ∀ m, m < 64 → base64Val (base64Char m) = some m := by decide
  exact hall n h

/-- No alphabet character is the padding character. -/
theorem base64Char_ne_pad {n : Nat} (h : n < 64) : base64Char n ≠ '=' := by
  have hall : ∀ m, m < 64 → base64Char m ≠ '=' := by decide
  exact hall n h

/-- Base64 decoding inverts base64 encoding on byte lists. -/
theorem base64_roundtrip : ∀ bs : List Nat, (∀ b ∈ bs, b < 256) →
    base64Decode (base64Encode bs) = some bs
  | [], _ => rfl
  | [b1], h => by
    have hb1 : b1 < 256 := h b1 (by simp)
    have h1 : b1 / 4 < 64 := by omega
    have h2 : (b1 % 4) * 16 < 64 := by omega
    simp only [base64Encode, base64Decode, if_pos rfl, and_self, if_true,
      base64Val_base64Char h1, base64Val_base64Char h2]
    simp only [Option.some.injEq, List.cons.injEq, and_true]
    omega
  | [b1, b2], h => by
    have hb1 : b1 < 256 := h b1 (by simp)
    have hb2 : b2 < 256 := h b2 (by simp)
    have h1 : b1 / 4 < 64 := by omega
    have h2 : (b1 % 4) * 16 + b2 / 16 < 64 := by omega
    have h3 : (b2 % 16) * 4 < 64 := by omega
    have hne : ¬(base64Char ((b2 % 16) * 4) = '=') := base64Char_ne_pad h3
    simp only [base64Encode, base64Decode, if_neg hne, if_pos rfl, and_self, if_true,
      base64Val_base64Char h1, base64Val_base64Char h2, base64Val_base64Char h3]
    simp only [Option.some.injEq, List.cons.injEq, and_true]
    omega
  | b1 :: b2 :: b3 :: rest, h => by
    have hb1 : b1 < 256 := h b1 (by simp)
    have hb2 : b2 < 256 := h b2 (by simp)
    have hb3 : b3 < 256 := h b3 (by simp)
    have h1 : b1 / 4 < 64 := by omega
    have h2 : (b1 % 4) * 16 + b2 / 16 < 64 := by omega
    have h3 : (b2 % 16) * 4 + b3 / 64 < 64 := by omega
    have h4 : b3 % 64 < 64 := by omega
    have hne3 : ¬(base64Char ((b2 % 16) * 4 + b3 / 64) = '=') := base64Char_ne_pad h3
    have hne4 : ¬(base64Char (b3 % 64) = '=') := base64Char_ne_pad h4
    have hrest := base64_roundtrip rest (fun b hb => h b (by simp [hb]))
    simp only [base64Encode, base64Decode, if_neg hne3, if_neg hne4,
      base64Val_base64Char h1, base64Val_base64Char h2,
      base64Val_base64Char h3, base64Val_base64Char h4, hrest]
    simp only [Option.some.injEq, List.cons.injEq, and_true]
    refine ⟨by omega, by omega, by omega⟩

/-- A `Char`'s code point is a valid Unicode scalar value. -/
theorem char_toNat_valid (c : Char) :
    c.toNat < 0xD800 ∨ (0xE000 ≤ c.toNat ∧ c.toNat < 0x110000) := by
  rcases c.valid with h | h
  · left; exact h
  · right; exact h

/-- `mkChar?` inverts `Char.toNat`. -/
theorem mkChar?_toNat (c : Char) : mkChar? c.toNat = some c := by
  unfold mkChar?
  rw [if_pos (char_toNat_valid c), Char.ofNat_toNat]

/-- UTF-8 encoding produces bytes. -/
theorem utf8EncodeChar_lt (c : Char) : ∀ b ∈ utf8EncodeChar c, b < 256 := by
  have hv := char_toNat_valid c
  intro b hb
  simp only [utf8EncodeChar] at hb
  split_ifs at hb with h1 h2 h3 <;> simp at hb <;> omega

/-- UTF-8 encoding of a string produces bytes. -/
theorem utf8Encode_lt (s : List Char) : ∀ b ∈ utf8Encode s, b < 256 := by
  induction s with
  | nil => intro b hb; cases hb
  | cons c cs ih =>
    intro b hb
    rcases List.mem_append.mp hb with h | h
    · exact utf8EncodeChar_lt c b h
    · exact ih b h

set_option maxRecDepth 4000 in
/-- Decoding a UTF-8 stream that starts with one encoded character peels
exactly that character. -/
theorem utf8Decode_encodeChar_append (c : Char) (bs : List Nat) :
    utf8Decode (utf8EncodeChar c ++ bs) =
      match utf8Decode bs with
      | some cs => some (c :: cs)
      | none => none := by
  have hv := char_toNat_valid c
  simp only [utf8EncodeChar]
  split_ifs with h1 h2 h3
  · -- one byte
    simp only [List.cons_append, List.nil_append]
    rw [utf8Decode.eq_def]
    simp only []
    rw [if_pos h1, mkChar?_toNat]
    cases utf8Decode bs <;> rfl
  · -- two bytes, 0x80 ≤ n < 0x800
    have hn : 0x80 ≤ c.toNat := by omega
    simp only [List.cons_append, List.nil_append]
    rw [utf8Decode.eq_def]
    simp only []
    rw [if_neg (by omega), if_neg (by omega), if_pos (by omega),
      if_pos (by constructor <;> omega)]
    have harg : (0xC0 + c.toNat / 64 - 0xC0) * 64 + (0x80 + c.toNat % 64 - 0x80) =
        c.toNat := by omega
    rw [harg, mkChar?_toNat]
    cases utf8Decode bs <;> rfl
  · -- three bytes, 0x800 ≤ n < 0x10000
    have hn : 0x800 ≤ c.toNat := by omega
    simp only [List.cons_append, List.nil_append]
    rw [utf8Decode.eq_def]
    simp only []
    rw [if_neg (by omega), if_neg (by omega), if_neg (by omega), if_pos (by omega),
      if_pos (by constructor <;> constructor <;> omega)]
    have harg : (0xE0 + c.toNat / 4096 - 0xE0) * 4096 +
        (0x80 + c.toNat / 64 % 64 - 0x80) * 64 + (0x80 + c.toNat % 64 - 0x80) =
        c.toNat := by omega
    rw [harg, mkChar?_toNat]
    cases utf8Decode bs <;> rfl
  · -- four bytes, 0x10000 ≤ n < 0x110000
    have hn : 0x10000 ≤ c.toNat := by omega
    have hup : c.toNat < 0x110000 := by omega
    simp only [List.cons_append, List.nil_append]
    rw [utf8Decode.eq_def]
    simp only []
    rw [if_neg (by omega), if_neg (by omega), if_neg (by omega), if_neg (by omega),
      if_pos (by omega), if_pos (by refine ⟨⟨?_, ?_⟩, ⟨?_, ?_⟩, ?_, ?_⟩ <;> omega)]
    have harg : (0xF0 + c.toNat / 262144 - 0xF0) * 262144 +
        (0x80 + c.toNat / 4096 % 64 - 0x80) * 4096 +
        (0x80 + c.toNat / 64 % 64 - 0x80) * 64 + (0x80 + c.toNat % 64 - 0x80) =
        c.toNat := by omega
    rw [harg, mkChar?_toNat]
    cases utf8Decode bs <;> rfl

/-- UTF-8 decoding inverts UTF-8 encoding. -/
theorem utf8_roundtrip (s : List Char) : utf8Decode (utf8Encode s) = some s := by
  induction s with
  | nil => rfl
  | cons c cs ih =>
    show utf8Decode (utf8EncodeChar c ++ utf8Encode cs) = some (c :: cs)
    rw [utf8Decode_encodeChar_append, ih]

/-- The hex-digit lookup inverts the hex-digit map on values below 16. -/
theorem hexVal_hexDigitChar {n : Nat} (h : n < 16) :
    hexVal (hexDigitChar n) = some n := by
  have hall : ∀ m, m < 16 → hexVal (hexDigitChar m) = some m := by decide
  exact hall n h

set_option maxHeartbeats 3000000 in
/-- Parsing a JSON string body inverts escaping: the escaped content
followed by the closing quote parses back to the content, leaving the
remainder untouched. -/
theorem parseStringBody_escapeList (s rest : List Char) :
    parseStringBody (escapeList s ++ ('"' :: rest)) = some (s, rest) := by
  induction s with
  | nil =>
    show parseStringBody ('"' :: rest) = some ([], rest)
    rw [parseStringBody.eq_def]
    simp only [reduceIte]
  | cons c cs ih =>
    by_cases h1 : c = '"'
    · subst h1
      show parseStringBody ('\\' :: '"' :: (escapeList cs ++ ('"' :: rest))) =
          some ('"' :: cs, rest)
      rw [parseStringBody.eq_def]
      simp only [reduceIte]
      rw [ih]
      rfl
    · by_cases h2 : c = '\\'
      · subst h2
        show parseStringBody ('\\' :: '\\' :: (escapeList cs ++ ('"' :: rest))) =
            some ('\\' :: cs, rest)
        rw [parseStringBody.eq_def]
        simp only [reduceIte]
        rw [ih]
        rfl
      · by_cases h3 : c = Char.ofNat 8
        · subst h3
          show parseStringBody ('\\' :: 'b' :: (escapeList cs ++ ('"' :: rest))) =
              some (Char.ofNat 8 :: cs, rest)
          rw [parseStringBody.eq_def]
          simp only [reduceIte]
          rw [ih]
          rfl
        · by_cases h4 : c = Char.ofNat 9
          · subst h4
            show parseStringBody ('\\' :: 't' :: (escapeList cs ++ ('"' :: rest))) =
                some (Char.ofNat 9 :: cs, rest)
            rw [parseStringBody.eq_def]
            simp only [reduceIte]
            rw [ih]
            rfl
          · by_cases h5 : c = Char.ofNat 10
            · subst h5
              show parseStringBody ('\\' :: 'n' :: (escapeList cs ++ ('"' :: rest))) =
                  some (Char.ofNat 10 :: cs, rest)
              rw [parseStringBody.eq_def]
              simp only [reduceIte]
              rw [ih]
              rfl
            · by_cases h6 : c = Char.ofNat 12
              · subst h6
                show parseStringBody ('\\' :: 'f' :: (escapeList cs ++ ('"' :: rest))) =
                    some (Char.ofNat 12 :: cs, rest)
                rw [parseStringBody.eq_def]
                simp only [reduceIte]
                rw [ih]
                rfl
              · by_cases h7 : c = Char.ofNat 13
                · subst h7
                  show parseStringBody ('\\' :: 'r' :: (escapeList cs ++ ('"' :: rest))) =
                      some (Char.ofNat 13 :: cs, rest)
                  rw [parseStringBody.eq_def]
                  simp only [reduceIte]
                  rw [ih]
                  rfl
                · by_cases h8 : c.toNat < 32
                  · -- the \u00xx escape
                    have hesc : escapeChar c =
                        ['\\', 'u', '0', '0', hexDigitChar (c.toNat / 16),
                         hexDigitChar (c.toNat % 16)] := by
                      simp only [escapeChar, if_neg h1, if_neg h2, if_neg h3, if_neg h4,
                        if_neg h5, if_neg h6, if_neg h7, if_pos h8]
                    have hgoal : escapeList (c :: cs) ++ ('"' :: rest) =
                        '\\' :: 'u' :: '0' :: '0' :: hexDigitChar (c.toNat / 16) ::
                          hexDigitChar (c.toNat % 16) :: (escapeList cs ++ ('"' :: rest)) := by
                      show escapeChar c ++ escapeList cs ++ ('"' :: rest) = _
                      rw [hesc]
                      rfl
                    rw [hgoal]
                    rw [parseStringBody.eq_def]
                    simp only [reduceIte]
                    have hz : hexVal '0' = some 0 := rfl
                    rw [hz]
                    simp only [Option.some_bind]
                    rw [hexVal_hexDigitChar (show c.toNat / 16 < 16 by omega)]
                    simp only [Option.some_bind]
                    rw [hexVal_hexDigitChar (show c.toNat % 16 < 16 by omega)]
                    simp only [Option.some_bind]
                    have harg : 0 * 4096 + 0 * 256 + c.toNat / 16 * 16 + c.toNat % 16 =
                        c.toNat := by omega
                    rw [harg, mkChar?_toNat]
                    simp only [Option.some_bind]
                    rw [ih]
                    rfl
                  · -- plain character
                    have hesc : escapeChar c = [c] := by
                      simp only [escapeChar, if_neg h1, if_neg h2, if_neg h3, if_neg h4,
                        if_neg h5, if_neg h6, if_neg h7, if_neg h8]
                    have hgoal : escapeList (c :: cs) ++ ('"' :: rest) =
                        c :: (escapeList cs ++ ('"' :: rest)) := by
                      show escapeChar c ++ escapeList cs ++ ('"' :: rest) = _
                      rw [hesc]
                      rfl
                    rw [hgoal]
                    rw [parseStringBody.eq_def]
                    simp only []
                    rw [if_neg h1, if_neg h2, ih]
                    rfl

/-- Parsing one key-value pair inverts quoting of key and value. -/
theorem parsePair_quoted (k v rest : List Char) :
    parsePair (quoteString k ++ (':' :: (quoteString v ++ rest))) =
      some ((k, v), rest) := by
  have hshape : quoteString k ++ (':' :: (quoteString v ++ rest)) =
      '"' :: (escapeList k ++ ('"' :: (':' ::
        ('"' :: (escapeList v ++ ('"' :: rest)))))) := by
    simp [quoteString, List.append_assoc]
  rw [hshape]
  simp only [parsePair, reduceIte]
  rw [parseStringBody_escapeList]
  simp only [reduceIte]
  rw [parseStringBody_escapeList]

/-- Parsing inverts serialization of a session description. -/
theorem parseDesc_stringifyDesc (d : SessionDesc) :
    parseDesc (stringifyDesc d) = some d := by
  simp only [stringifyDesc, parseDesc, reduceIte]
  rw [parsePair_quoted]
  simp only [reduceIte]
  rw [parsePair_quoted]
  simp only [reduceIte, and_self, if_true]

/-- Claim C9: the signaling payload encoding round-trips exactly — for
every session description, the decode performed by `handleIncomingCall`
and `handleAnswer` (`JSON.parse` of the base64-decoded UTF-8 text) is the
exact inverse of the encode performed by `_makeCallInternal` and
`createAnswer` (base64 of the UTF-8 bytes of the JSON serialization). -/
theorem payload_roundtrip (d : SessionDesc) :
    decodeDescPayload (encodeDescPayload d) = some d := by
  have h1 := base64_roundtrip (utf8Encode (stringifyDesc d))
    (utf8Encode_lt (stringifyDesc d))
  simp only [decodeDescPayload, encodeDescPayload, h1, utf8_roundtrip,
    parseDesc_stringifyDesc]

end VideoCall
